import Mathlib

/-! Storefront handlers of `server.js`

A shallow embedding of the request handlers of `src/server.js` (cart, discount,
totals, login, registration) together with the properties of the written
specification that concern them.

Modelling conventions.
* A form field of `req.body` (parsed by `express.urlencoded` with
  `extended: false`) is absent, one string, or several strings.
* A JavaScript number that comes out of `parseInt` is `Option Int`:
  `none` is `NaN`, `some z` the integer `z` (kept exact; rounding of integers
  beyond `2^53` is not modelled).
* Prices and percentages (SQLite `REAL`) are rationals, as the specification
  asks for exact arithmetic.
* The tables are lists of rows in insertion order and `WHERE col = ?` is an
  exact match returning the first row.
* `bcrypt` and the token signature are parameters or plain records.
-/

namespace Storefront

/-! ## JavaScript built-ins used by the handlers -/

/-- WhiteSpace and LineTerminator code points of ECMAScript: what
`String.prototype.trim` removes and what `parseInt` skips. -/
def isJsWhiteSpace (c : Char) : Bool :=
  let n := c.toNat
  n == 0x09 || n == 0x0A || n == 0x0B || n == 0x0C || n == 0x0D || n == 0x20 ||
  n == 0xA0 || n == 0x1680 || (0x2000 ≤ n && n ≤ 0x200A) || n == 0x2028 ||
  n == 0x2029 || n == 0x202F || n == 0x205F || n == 0x3000 || n == 0xFEFF

/-- Characters of `s.trim()`. -/
def trimChars (cs : List Char) : List Char :=
  ((cs.dropWhile isJsWhiteSpace).reverse.dropWhile isJsWhiteSpace).reverse

/-- `String.prototype.trim`. -/
def jsTrim (s : String) : String := ⟨trimChars s.data⟩

/-- Upper-casing of one character, on the ASCII letters `a`..`z`; every other
code point is left as it is (the Unicode case tables are not modelled). -/
def upperChar (c : Char) : Char :=
  if 97 ≤ c.toNat ∧ c.toNat ≤ 122 then Char.ofNat (c.toNat - 32) else c

/-- `String.prototype.toUpperCase`, see `upperChar`. -/
def jsToUpperCase (s : String) : String := ⟨s.data.map upperChar⟩

/-- `String.prototype.length`: the number of UTF-16 code units. -/
def jsLength (s : String) : Nat :=
  (s.data.map (fun c => if c.toNat < 0x10000 then 1 else 2)).sum

/-- Value of `c` as a digit of the given radix, if it is one. -/
def digitValue (radix : Nat) (c : Char) : Option Nat :=
  let n := c.toNat
  let v : Option Nat :=
    if 48 ≤ n ∧ n ≤ 57 then some (n - 48)
    else if 97 ≤ n ∧ n ≤ 122 then some (n - 87)
    else if 65 ≤ n ∧ n ≤ 90 then some (n - 55)
    else none
  match v with
  | some d => if d < radix then some d else none
  | none => none

/-- The digits of the longest prefix made of digits of the radix. -/
def digitsPrefix (radix : Nat) : List Char → List Nat
  | [] => []
  | c :: cs =>
    match digitValue radix c with
    | some d => d :: digitsPrefix radix cs
    | none => []

/-- Sign of the numeral and what follows the sign character. -/
def splitSign : List Char → Bool × List Char
  | c :: cs => if c = '-' then (true, cs) else if c = '+' then (false, cs) else (false, c :: cs)
  | [] => (false, [])

/-- Radix of the numeral (16 after `0x` or `0X`, else 10) and what follows the prefix. -/
def splitRadix : List Char → Nat × List Char
  | c :: d :: cs =>
    if c = '0' ∧ (d = 'x' ∨ d = 'X') then (16, cs) else (10, c :: d :: cs)
  | cs => (10, cs)

/-- `parseInt(s)` with no radix argument, on the characters of `s`. -/
def parseIntChars (cs : List Char) : Option Int :=
  let (neg, afterSign) := splitSign (cs.dropWhile isJsWhiteSpace)
  let (radix, body) := splitRadix afterSign
  match digitsPrefix radix body with
  | [] => none
  | ds =>
    let m : Int := ds.foldl (fun acc d => acc * (radix : Int) + (d : Int)) 0
    some (if neg then -m else m)

/-- A field of `req.body`. -/
inductive FormValue where
  | absent
  | text (s : String)
  | many (xs : List String)
deriving DecidableEq

/-- JavaScript `ToString` of a body field (`undefined`, a string, an array). -/
def FormValue.toJsString : FormValue → String
  | .absent => "undefined"
  | .text s => s
  | .many xs => ",".intercalate xs

/-- `parseInt(v)` for a body field `v`. -/
def parseInt (v : FormValue) : Option Int := parseIntChars v.toJsString.data

/-- `req.body` of a form post. -/
structure Body where
  productId : FormValue := .absent
  quantity : FormValue := .absent
  discount : FormValue := .absent
  username : FormValue := .absent
  password : FormValue := .absent
deriving DecidableEq

/-! ## Data model -/

/-- A line of `req.session.cart`. -/
structure CartLine where
  productId : Int
  quantity : Int
deriving DecidableEq

/-- A row of the `discounts` table. -/
structure Discount where
  code : String
  percent : ℚ
deriving DecidableEq

/-- A row of the `products` table. -/
structure Product where
  id : Int
  name : String
  description : String
  price : ℚ
  image : String
  category : String
deriving DecidableEq

/-- The fields of `req.session` that the handlers use; `none` is `undefined`. -/
structure Session where
  cart : Option (List CartLine) := none
  discount : Option Discount := none
  discountError : Option String := none
deriving DecidableEq

/-- What a cart handler answers. -/
inductive Reply where
  | redirect (location : String)
  | status (code : Nat) (text : String)
  | thrown
deriving DecidableEq

/-- The rows inserted by `seedDiscounts`. -/
def seedDiscounts : List Discount :=
  [⟨"SAVE10", 10⟩, ⟨"FALL25", 25⟩, ⟨"WELCOME5", 5⟩]

/-! ## Cart handlers -/

/-- The statement `existing.quantity += quantity` on the first line for `productId`. -/
def incrementFirst (productId quantity : Int) : List CartLine → List CartLine
  | [] => []
  | l :: ls =>
    if l.productId = productId then { l with quantity := l.quantity + quantity } :: ls
    else l :: incrementFirst productId quantity ls

/-- Lines 178 to 183 of `app.post("/cart/add")`: `find` the line of the product,
increment it when there is one, `push` a new line otherwise. -/
def addLine (productId quantity : Int) (cart : List CartLine) : List CartLine :=
  match cart.find? (fun item => item.productId = productId) with
  | some _ => incrementFirst productId quantity cart
  | none => cart ++ [⟨productId, quantity⟩]

/-- The expression `parseInt(req.body.quantity) || 1`: `NaN` and `0` are falsy. -/
def quantityOrOne (v : FormValue) : Int :=
  match parseInt v with
  | none => 1
  | some q => if q = 0 then 1 else q

/-- Handler `app.post("/cart/add")`. -/
def postCartAdd (sess : Session) (body : Body) : Reply × Session :=
  let productId := parseInt body.productId
  let quantity := quantityOrOne body.quantity
  match productId with
  | none => (.status 400 "Invalid input", sess)
  | some pid =>
    if pid = 0 ∨ quantity < 1 then (.status 400 "Invalid input", sess)
    else (.redirect "/cart", { sess with cart := some (addLine pid quantity (sess.cart.getD [])) })

/-- Handler `app.post("/cart/remove")`. -/
def postCartRemove (sess : Session) (body : Body) : Reply × Session :=
  let productId := parseInt body.productId
  let cart := sess.cart.getD []
  -- `item.productId !== productId` is true of every line when `productId` is NaN
  let cart := cart.filter (fun item => decide (some item.productId ≠ productId))
  if cart.length = 0 then
    (.redirect "/cart", { sess with cart := some cart, discount := none, discountError := none })
  else
    (.redirect "/cart", { sess with cart := some cart })

/-- Handler `app.post("/cart/apply-discount")`, over the rows of the `discounts` table. -/
def postCartApplyDiscount (discounts : List Discount) (sess : Session) (body : Body) :
    Reply × Session :=
  match body.discount with
  | .absent => (.redirect "/cart", sess)
  | .many _ => (.thrown, sess)
  | .text s =>
    let code := jsToUpperCase (jsTrim s)
    if code = "" then (.redirect "/cart", sess)
    else
      match discounts.find? (fun d => d.code = code) with
      | none =>
        (.redirect "/cart",
          { sess with discountError := some "Invalid discount code. Please try again." })
      | some discount =>
        (.redirect "/cart", { sess with discount := some discount, discountError := none })

/-! ## Totals -/

/-- An entry of the `products` array that `GET /cart` renders: the product row
spread, then `quantity` and `subtotal`. -/
structure CartViewLine where
  product : Product
  quantity : Int
  subtotal : ℚ
deriving DecidableEq

/-- The locals handed to the `cart` template. -/
structure CartView where
  products : List CartViewLine
  subtotal : ℚ
  tax : ℚ
  discountAmount : ℚ
  discountCode : Option String
  total : ℚ
  discountError : Option String
deriving DecidableEq

/-- The query `SELECT * FROM products WHERE id = ?`. -/
def selectProduct (store : List Product) (id : Int) : Option Product :=
  store.find? (fun p => p.id = id)

/-- The callback of `cart.map` in `GET /cart`, line by line; `none` when a
lookup returns `undefined` and reading `product.price` throws. -/
def cartProducts (store : List Product) : List CartLine → Option (List CartViewLine)
  | [] => some []
  | item :: rest =>
    match selectProduct store item.productId with
    | none => none
    | some product =>
      match cartProducts store rest with
      | none => none
      | some lines =>
        some (⟨product, item.quantity, product.price * (item.quantity : ℚ)⟩ :: lines)

/-- Handler `app.get("/cart")`: the locals it renders, `none` when it throws. -/
def getCart (store : List Product) (sess : Session) : Option CartView :=
  let cart := sess.cart.getD []
  match cartProducts store cart with
  | none => none
  | some products =>
    let subtotal : ℚ := products.foldl (fun sum p => sum + p.subtotal) 0
    let tax : ℚ := subtotal * 0.0825
    let discountAmount : ℚ :=
      match sess.discount with
      | some d => subtotal * (d.percent / 100)
      | none => 0
    let discountCode : Option String :=
      match sess.discount with
      | some d => some d.code
      | none => none
    let total := subtotal + tax - discountAmount
    some
      { products := products, subtotal := subtotal, tax := tax,
        discountAmount := discountAmount, discountCode := discountCode,
        total := total, discountError := sess.discountError }

/-! ## Authentication -/

/-- A row of the `users` table. -/
structure User where
  id : Int
  username : String
  password : String
deriving DecidableEq

/-- The payload given to `jwt.sign`; the signature itself is not modelled. -/
structure TokenClaims where
  exp : Nat
  skyColor : String
  userid : Int
  username : String
deriving DecidableEq

/-- The call `res.cookie(name, value, options)`. -/
structure Cookie where
  name : String
  value : TokenClaims
  httpOnly : Bool
  secure : Bool
  sameSite : String
  maxAge : Nat
deriving DecidableEq

/-- What `POST /login` and `POST /register` answer. -/
inductive AuthReply where
  | render (view : String) (errors : List String)
  | cookieAndRedirect (cookie : Cookie) (location : String)
  | thrown
deriving DecidableEq

/-- The coercion `if (typeof v !== "string") v = ""`. -/
def FormValue.orEmpty : FormValue → String
  | .text s => s
  | _ => ""

/-- The cookie both handlers set; `now` is `Date.now()` in milliseconds. -/
def authCookie (now : Nat) (u : User) : Cookie :=
  { name := "Lucaria",
    value := { exp := now / 1000 + 60 * 60 * 24, skyColor := "blue",
               userid := u.id, username := u.username },
    httpOnly := true, secure := true, sameSite := "strict",
    maxAge := 1000 * 60 * 60 * 24 }

/-- The query `SELECT * FROM users WHERE username = ?`. -/
def selectUser (users : List User) (username : String) : Option User :=
  users.find? (fun u => u.username = username)

/-- Handler `app.post("/login")`; `compareSync` is `bcrypt.compareSync`. -/
def postLogin (compareSync : String → String → Bool) (now : Nat) (users : List User)
    (body : Body) : AuthReply :=
  let username := body.username.orEmpty
  let password := body.password.orEmpty
  let errors : List String := []
  let errors := if jsTrim username = "" then ["Invalid username / password."] else errors
  let errors := if username = "" then ["Invalid username / password."] else errors
  if errors.length ≠ 0 then .render "login" errors
  else
    match selectUser users username with
    | none => .render "login" ["Invalid username / password."]
    | some userInQuestion =>
      if compareSync password userInQuestion.password = false then
        .render "login" ["Invalid username / password."]
      else
        .cookieAndRedirect (authCookie now userInQuestion) "/"

/-- Whether `s` matches the pattern `^[a-zA-Z0-9]+$`. -/
def isAlphanumeric (s : String) : Bool :=
  s.data ≠ [] && s.data.all (fun c =>
    let n := c.toNat
    (97 ≤ n && n ≤ 122) || (65 ≤ n && n ≤ 90) || (48 ≤ n && n ≤ 57))

/-- The id an `AUTOINCREMENT` key gives the next row: one more than the largest
id in use (rows are never deleted). -/
def nextUserId (users : List User) : Int :=
  (users.map (fun u => u.id)).foldl max 0 + 1

/-- The error list that `POST /register` accumulates, in source order. -/
def registerErrors (users : List User) (username password : String) : List String :=
  (if username = "" then ["Enter a username."] else []) ++
  (if username ≠ "" ∧ jsLength username < 3 then
    ["Username must be at least 3 characters"] else []) ++
  (if username ≠ "" ∧ jsLength username > 10 then
    ["Username cannot exceed 10 characters"] else []) ++
  (if username ≠ "" ∧ isAlphanumeric username = false then
    ["Username can only contain letters and numbers"] else []) ++
  (if (selectUser users username).isSome then ["Username is taken."] else []) ++
  (if username = "" then ["Enter a password."] else []) ++
  (if password ≠ "" ∧ jsLength password < 12 then
    ["Password must be at least 12 characters"] else []) ++
  (if password ≠ "" ∧ jsLength password > 70 then
    ["Password cannot exceed 70 characters"] else [])

/-- Handler `app.post("/register")`: the answer and the `users` table afterwards;
`hashSync` is `bcrypt.hashSync` with the salt drawn for this request. -/
def postRegister (hashSync : String → String) (now : Nat) (users : List User)
    (body : Body) : AuthReply × List User :=
  let username := jsTrim body.username.orEmpty
  let password := body.password.orEmpty
  let errors := registerErrors users username password
  if errors.length ≠ 0 then (.render "homepage" errors, users)
  else
    let lastInsertRowid := nextUserId users
    let users := users ++ [⟨lastInsertRowid, username, hashSync password⟩]
    match users.find? (fun u => u.id = lastInsertRowid) with
    | none => (.thrown, users)
    | some ourUser => (.cookieAndRedirect (authCookie now ourUser) "/", users)

/-- Price of the product that a cart line resolves to (0 when it resolves to none). -/
def linePrice (store : List Product) (l : CartLine) : ℚ :=
  match selectProduct store l.productId with
  | some p => p.price
  | none => 0

/-! ## Sequences of cart requests -/

/-- A request that mutates the session. -/
inductive Request where
  | cartAdd (body : Body)
  | cartRemove (body : Body)
  | applyDiscount (body : Body)
deriving DecidableEq

/-- The session after one request. -/
def step (discounts : List Discount) (sess : Session) : Request → Session
  | .cartAdd body => (postCartAdd sess body).2
  | .cartRemove body => (postCartRemove sess body).2
  | .applyDiscount body => (postCartApplyDiscount discounts sess body).2

/-- The session after a sequence of requests, oldest first. -/
def run (discounts : List Discount) (sess : Session) (reqs : List Request) : Session :=
  reqs.foldl (step discounts) sess

/-- Well-formed cart: pairwise distinct product ids, every quantity at least 1. -/
def CartWellFormed (sess : Session) : Prop :=
  ((sess.cart.getD []).map (fun l => l.productId)).Nodup ∧
    ∀ l ∈ sess.cart.getD [], 1 ≤ l.quantity

instance (sess : Session) : Decidable (CartWellFormed sess) := by
  unfold CartWellFormed
  infer_instance

/-! ## Lemmas on the totals -/

theorem selectProduct_isSome_of_mem (store : List Product) (id : Int)
    (h : ∃ p ∈ store, p.id = id) : ∃ p, selectProduct store id = some p := by
  obtain ⟨p, hp, hid⟩ := h
  cases hf : selectProduct store id with
  | some q => exact ⟨q, rfl⟩
  | none =>
    unfold selectProduct at hf
    rw [List.find?_eq_none] at hf
    have := hf p hp
    simp [hid] at this

theorem cartProducts_resolved (store : List Product) (cart : List CartLine)
    (h : ∀ l ∈ cart, ∃ p ∈ store, p.id = l.productId) :
    ∃ lines, cartProducts store cart = some lines ∧
      lines.map (fun v => v.subtotal) =
        cart.map (fun l => linePrice store l * (l.quantity : ℚ)) := by
  induction cart with
  | nil => exact ⟨[], rfl, rfl⟩
  | cons l ls ih =>
    obtain ⟨p, hp⟩ := selectProduct_isSome_of_mem store l.productId (h l (by simp))
    obtain ⟨lines, hl, hm⟩ := ih (fun x hx => h x (by simp [hx]))
    refine ⟨⟨p, l.quantity, p.price * (l.quantity : ℚ)⟩ :: lines, ?_, ?_⟩
    · simp [cartProducts, hp, hl]
    · simp [hm, linePrice, hp]

theorem foldl_subtotal_eq_sum (lines : List CartViewLine) (a : ℚ) :
    lines.foldl (fun sum p => sum + p.subtotal) a =
      a + (lines.map (fun v => v.subtotal)).sum := by
  induction lines generalizing a with
  | nil => simp
  | cons v vs ih => simp [ih, add_assoc]

/-! ## C1 -/

theorem addLine_of_not_mem (p q : Int) (cart : List CartLine)
    (h : p ∉ cart.map (fun l => l.productId)) : addLine p q cart = cart ++ [⟨p, q⟩] := by
  have hf : cart.find? (fun item => decide (item.productId = p)) = none := by
    rw [List.find?_eq_none]
    intro x hx hxp
    exact h (List.mem_map.mpr ⟨x, hx, by simpa using hxp⟩)
  simp only [addLine, hf]

theorem addLine_of_mem (p q : Int) (cart : List CartLine)
    (h : p ∈ cart.map (fun l => l.productId)) : addLine p q cart = incrementFirst p q cart := by
  cases hf : cart.find? (fun item => decide (item.productId = p)) with
  | some x => simp only [addLine, hf]
  | none =>
    rw [List.find?_eq_none] at hf
    obtain ⟨x, hx, hxp⟩ := List.mem_map.mp h
    exact absurd (by simpa using hxp) (hf x hx)

theorem incrementFirst_map_productId (p q : Int) (cart : List CartLine) :
    (incrementFirst p q cart).map (fun l => l.productId) = cart.map (fun l => l.productId) := by
  induction cart with
  | nil => rfl
  | cons l ls ih =>
    by_cases hl : l.productId = p
    · simp [incrementFirst, hl]
    · simp [incrementFirst, hl, ih]

theorem incrementFirst_filter_ne (p q : Int) (cart : List CartLine) :
    (incrementFirst p q cart).filter (fun l => decide (l.productId ≠ p)) =
      cart.filter (fun l => decide (l.productId ≠ p)) := by
  induction cart with
  | nil => rfl
  | cons l ls ih =>
    by_cases hl : l.productId = p
    · simp [incrementFirst, hl]
    · simp only [decide_not] at ih ⊢
      simp [incrementFirst, hl, ih]

theorem incrementFirst_of_not_mem (p q : Int) (cart : List CartLine)
    (h : p ∉ cart.map (fun l => l.productId)) : incrementFirst p q cart = cart := by
  induction cart with
  | nil => rfl
  | cons l ls ih =>
    simp only [List.map_cons, List.mem_cons, not_or] at h
    have hl : ¬ l.productId = p := fun e => h.1 e.symm
    simp [incrementFirst, hl, ih h.2]

theorem incrementFirst_twice (p q1 q2 : Int) (cart : List CartLine) :
    incrementFirst p q2 (incrementFirst p q1 cart) = incrementFirst p (q1 + q2) cart := by
  induction cart with
  | nil => rfl
  | cons l ls ih =>
    by_cases hl : l.productId = p
    · simp [incrementFirst, hl, add_assoc]
    · simp [incrementFirst, hl, ih]

theorem filter_eq_nil_of_not_mem (p : Int) (cart : List CartLine)
    (h : p ∉ cart.map (fun l => l.productId)) :
    cart.filter (fun l => decide (l.productId = p)) = [] := by
  rw [List.filter_eq_nil_iff]
  intro x hx hxp
  exact h (List.mem_map.mpr ⟨x, hx, by simpa using hxp⟩)

theorem incrementFirst_filter_eq (p q : Int) (cart : List CartLine)
    (hmem : p ∈ cart.map (fun l => l.productId))
    (hone : (cart.filter (fun l => decide (l.productId = p))).length ≤ 1) :
    (incrementFirst p q cart).filter (fun l => decide (l.productId = p)) =
      [⟨p, ((cart.filter (fun l => decide (l.productId = p))).map
              (fun l => l.quantity)).sum + q⟩] := by
  induction cart with
  | nil => simp at hmem
  | cons l ls ih =>
    by_cases hl : l.productId = p
    · have hrest : ls.filter (fun l => decide (l.productId = p)) = [] := by
        simp only [List.filter_cons, hl, decide_True, if_true, List.length_cons] at hone
        exact List.length_eq_zero.mp (by omega)
      have hl2 : l = ⟨p, l.quantity⟩ := by cases l; simp_all
      simp only [incrementFirst, hl, if_true, List.filter_cons, decide_True, hrest,
        List.map_cons, List.map_nil, List.sum_cons, List.sum_nil, add_zero]
    · have hmem2 : p ∈ ls.map (fun l => l.productId) := by
        simp only [List.map_cons, List.mem_cons] at hmem
        rcases hmem with e | hm
        · exact absurd e.symm hl
        · exact hm
      have hone2 : (ls.filter (fun l => decide (l.productId = p))).length ≤ 1 := by
        simpa [List.filter_cons, hl] using hone
      simp [incrementFirst, hl, List.filter_cons, ih hmem2 hone2]

theorem postCartAdd_accepted (sess : Session) (body : Body) (p q : Int)
    (hp : parseInt body.productId = some p) (hq : parseInt body.quantity = some q)
    (hp0 : p ≠ 0) (hq1 : 1 ≤ q) :
    postCartAdd sess body =
      (.redirect "/cart", { sess with cart := some (addLine p q (sess.cart.getD [])) }) := by
  have hq0 : ¬ q = 0 := by omega
  have hqq : quantityOrOne body.quantity = q := by simp [quantityOrOne, hq, hq0]
  have hc : ¬ (p = 0 ∨ q < 1) := by omega
  simp only [postCartAdd, hp, hqq, hc, if_false]

/-- The cart after adding `q1` and then `q2` of product `p`. -/
theorem addLine_twice (p q1 q2 : Int) (cart : List CartLine) :
    addLine p q2 (addLine p q1 cart) =
      if p ∈ cart.map (fun l => l.productId) then incrementFirst p (q1 + q2) cart
      else cart ++ [⟨p, q1 + q2⟩] := by
  by_cases hmem : p ∈ cart.map (fun l => l.productId)
  · rw [if_pos hmem, addLine_of_mem p q1 cart hmem,
      addLine_of_mem p q2 _ (by rw [incrementFirst_map_productId]; exact hmem),
      incrementFirst_twice]
  · rw [if_neg hmem, addLine_of_not_mem p q1 cart hmem, addLine_of_mem p q2 _ (by simp)]
    have : ∀ (c : List CartLine), p ∉ c.map (fun l => l.productId) →
        incrementFirst p q2 (c ++ [⟨p, q1⟩]) = c ++ [⟨p, q1 + q2⟩] := by
      intro c hc
      induction c with
      | nil => simp [incrementFirst]
      | cons l ls ih =>
        simp only [List.map_cons, List.mem_cons, not_or] at hc
        have hl : ¬ l.productId = p := fun e => hc.1 e.symm
        simp [incrementFirst, hl, ih hc.2]
    exact this cart hmem

/-! ## C2 -/

/-- C3, counterexample. A negative productId is accepted as a product id, and a
quantity of 0 is replaced by 1 before the guard: both requests are answered with
the redirect and put a line in the cart. -/
theorem postCartAdd_rejects_counterexample :
    (parseInt (.text "-5") = some (-5) ∧
      postCartAdd {} { productId := .text "-5", quantity := .text "1" } =
        (.redirect "/cart", { cart := some [⟨-5, 1⟩] })) ∧
    (parseInt (.text "0") = some 0 ∧
      postCartAdd {} { productId := .text "5", quantity := .text "0" } =
        (.redirect "/cart", { cart := some [⟨5, 1⟩] })) := by
  decide

/-- C3, amended. A request whose productId is missing, does not parse to a
number, or parses to 0, or whose quantity parses to a negative integer, is
answered 400 "Invalid input" and the session is returned as it was. -/
theorem postCartAdd_rejects (sess : Session) (body : Body)
    (h : body.productId = .absent ∨ parseInt body.productId = none ∨
      parseInt body.productId = some 0 ∨ ∃ q, parseInt body.quantity = some q ∧ q < 0) :
    postCartAdd sess body = (.status 400 "Invalid input", sess) := by
  have habs : parseInt .absent = none := by decide
  cases hp : parseInt body.productId with
  | none => simp only [postCartAdd, hp]
  | some p =>
    rcases h with h | h | h | ⟨q, hq, hneg⟩
    · rw [h, habs] at hp
      cases hp
    · rw [h] at hp
      cases hp
    · rw [h] at hp
      cases hp
      simp [postCartAdd, h]
    · have hq0 : ¬ q = 0 := by omega
      have hqq : quantityOrOne body.quantity = q := by simp [quantityOrOne, hq, hq0]
      have hc : p = 0 ∨ q < 1 := Or.inr (by omega)
      simp only [postCartAdd, hp, hqq, hc, if_true]

/-- C3, amended, at the form values "5" and "-2" on a cart that holds a line. -/
theorem postCartAdd_rejects_witness :
    postCartAdd { cart := some [⟨5, 1⟩] } { productId := .text "5", quantity := .text "-2" } =
      (.status 400 "Invalid input", { cart := some [⟨5, 1⟩] }) :=
  postCartAdd_rejects { cart := some [⟨5, 1⟩] }
    { productId := .text "5", quantity := .text "-2" }
    (Or.inr (Or.inr (Or.inr ⟨-2, by decide, by decide⟩)))

/-! ## C4 -/

theorem incrementFirst_quantities (p q : Int) (hq : 0 ≤ q) (cart : List CartLine)
    (h : ∀ l ∈ cart, 1 ≤ l.quantity) : ∀ l ∈ incrementFirst p q cart, 1 ≤ l.quantity := by
  induction cart with
  | nil => simp [incrementFirst]
  | cons x xs ih =>
    have hx : 1 ≤ x.quantity := h x (by simp)
    have hxs : ∀ l ∈ xs, 1 ≤ l.quantity := fun l hl => h l (by simp [hl])
    by_cases hl : x.productId = p
    · intro l hmem
      simp only [incrementFirst, hl, if_true, List.mem_cons] at hmem
      rcases hmem with e | hm
      · subst e
        show 1 ≤ x.quantity + q
        omega
      · exact hxs l hm
    · intro l hmem
      simp only [incrementFirst, hl, if_false, List.mem_cons] at hmem
      rcases hmem with e | hm
      · subst e
        exact hx
      · exact ih hxs l hm

theorem addLine_wellFormed (p q : Int) (hq : 1 ≤ q) (cart : List CartLine)
    (hnd : (cart.map (fun l => l.productId)).Nodup) (hqs : ∀ l ∈ cart, 1 ≤ l.quantity) :
    ((addLine p q cart).map (fun l => l.productId)).Nodup ∧
      ∀ l ∈ addLine p q cart, 1 ≤ l.quantity := by
  by_cases hmem : p ∈ cart.map (fun l => l.productId)
  · rw [addLine_of_mem p q cart hmem, incrementFirst_map_productId]
    exact ⟨hnd, incrementFirst_quantities p q (by omega) cart hqs⟩
  · rw [addLine_of_not_mem p q cart hmem]
    constructor
    · rw [List.map_append, List.nodup_append]
      refine ⟨hnd, by simp, ?_⟩
      intro a ha hb
      simp only [List.map_cons, List.map_nil, List.mem_singleton] at hb
      exact hmem (hb ▸ ha)
    · intro l hl
      rcases List.mem_append.mp hl with h | h
      · exact hqs l h
      · simp only [List.mem_singleton] at h
        subst h
        exact hq

theorem step_wellFormed (discounts : List Discount) (sess : Session) (r : Request)
    (h : CartWellFormed sess) : CartWellFormed (step discounts sess r) := by
  obtain ⟨hnd, hqs⟩ := h
  cases r with
  | cartAdd body =>
    simp only [step, postCartAdd]
    cases hp : parseInt body.productId with
    | none => exact ⟨hnd, hqs⟩
    | some p =>
      by_cases hc : p = 0 ∨ quantityOrOne body.quantity < 1
      · simp only [hc, if_true]
        exact ⟨hnd, hqs⟩
      · simp only [hc, if_false]
        have hq : 1 ≤ quantityOrOne body.quantity := by
          have : ¬ quantityOrOne body.quantity < 1 := fun hlt => hc (Or.inr hlt)
          omega
        exact addLine_wellFormed p _ hq _ hnd hqs
  | cartRemove body =>
    have hsub : ((sess.cart.getD []).filter
        (fun item => decide (some item.productId ≠ parseInt body.productId))).Sublist
        (sess.cart.getD []) := List.filter_sublist _
    have hwf : ((List.filter (fun item => decide (some item.productId ≠ parseInt body.productId))
          (sess.cart.getD [])).map (fun l => l.productId)).Nodup ∧
        ∀ l ∈ List.filter (fun item => decide (some item.productId ≠ parseInt body.productId))
          (sess.cart.getD []), 1 ≤ l.quantity :=
      ⟨List.Nodup.sublist (List.Sublist.map _ hsub) hnd,
        fun l hl => hqs l (hsub.subset hl)⟩
    simp only [step, postCartRemove]
    split
    · exact hwf
    · exact hwf
  | applyDiscount body =>
    simp only [step, postCartApplyDiscount]
    split
    · exact ⟨hnd, hqs⟩
    · exact ⟨hnd, hqs⟩
    · split
      · exact ⟨hnd, hqs⟩
      · split
        · exact ⟨hnd, hqs⟩
        · exact ⟨hnd, hqs⟩

theorem run_wellFormed (discounts : List Discount) (reqs : List Request) (sess : Session)
    (h : CartWellFormed sess) : CartWellFormed (run discounts sess reqs) := by
  induction reqs generalizing sess with
  | nil => exact h
  | cons r rs ih => exact ih _ (step_wellFormed discounts sess r h)

/-- C5. When every line of the cart is for product `p`, whatever discount and
discountError the session holds, POST /cart/remove of `p` followed by GET /cart
renders an empty product list, subtotal 0, tax 0, discountAmount 0, total 0, no
discountCode and no discountError, over any products table. -/
theorem remove_last_then_totals (store : List Product) (sess : Session) (body : Body) (p : Int)
    (hp : parseInt body.productId = some p)
    (honly : ∀ l ∈ sess.cart.getD [], l.productId = p) :
    getCart store (postCartRemove sess body).2 =
      some { products := [], subtotal := 0, tax := 0, discountAmount := 0,
             discountCode := none, total := 0, discountError := none } := by
  have hf : (sess.cart.getD []).filter
      (fun item => decide (some item.productId ≠ parseInt body.productId)) = [] := by
    rw [List.filter_eq_nil_iff]
    intro l hl
    simp [hp, honly l hl]
  simp only [postCartRemove, hf, List.length_nil, if_true]
  simp [getCart, cartProducts]

/-- C5 on a cart of three of product 5 under SAVE10 with a pending error. -/
theorem remove_last_then_totals_witness :
    getCart []
      (postCartRemove
        { cart := some [⟨5, 3⟩], discount := some ⟨"SAVE10", 10⟩,
          discountError := some "Invalid discount code. Please try again." }
        { productId := .text "5" }).2 =
      some { products := [], subtotal := 0, tax := 0, discountAmount := 0,
             discountCode := none, total := 0, discountError := none } :=
  remove_last_then_totals []
    { cart := some [⟨5, 3⟩], discount := some ⟨"SAVE10", 10⟩,
      discountError := some "Invalid discount code. Please try again." }
    { productId := .text "5" } 5 (by decide) (by decide)

/-! ## C6 -/

theorem postCartRemove_idempotent (sess : Session) (body : Body) :
    postCartRemove (postCartRemove sess body).2 body = postCartRemove sess body := by
  simp only [postCartRemove]
  split
  · rename_i h0
    simp only [Option.getD_some, List.filter_filter, Bool.and_self, h0, if_true]
  · rename_i h0
    simp only [Option.getD_some, List.filter_filter, Bool.and_self, h0, if_false]

theorem upperChar_toNat (c : Char) (h : 97 ≤ c.toNat ∧ c.toNat ≤ 122) :
    (upperChar c).toNat = c.toNat - 32 := by
  have h2 : upperChar c = Char.ofNat (c.toNat - 32) := by simp [upperChar, h]
  rw [h2]
  obtain ⟨h1, h3⟩ := h
  generalize c.toNat = n at *
  interval_cases n <;> rfl

theorem upperChar_of_not_lower (c : Char) (h : ¬ (97 ≤ c.toNat ∧ c.toNat ≤ 122)) :
    upperChar c = c := by
  simp only [upperChar, h, if_false]

theorem upperChar_idem (c : Char) : upperChar (upperChar c) = upperChar c := by
  by_cases h : 97 ≤ c.toNat ∧ c.toNat ≤ 122
  · have := upperChar_toNat c h
    exact upperChar_of_not_lower _ (by omega)
  · rw [upperChar_of_not_lower c h, upperChar_of_not_lower c h]

theorem isJsWhiteSpace_upperChar (c : Char) : isJsWhiteSpace (upperChar c) = isJsWhiteSpace c := by
  by_cases h : 97 ≤ c.toNat ∧ c.toNat ≤ 122
  · have h1 := upperChar_toNat c h
    have e1 : isJsWhiteSpace (upperChar c) = false := by
      unfold isJsWhiteSpace
      simp only [h1]
      simp
      omega
    have e2 : isJsWhiteSpace c = false := by
      unfold isJsWhiteSpace
      simp
      omega
    rw [e1, e2]
  · have h2 : upperChar c = c := by simp only [upperChar, h, if_false]
    rw [h2]

theorem dropWhile_map_upper (l : List Char) :
    (l.map upperChar).dropWhile isJsWhiteSpace = (l.dropWhile isJsWhiteSpace).map upperChar := by
  induction l with
  | nil => rfl
  | cons c cs ih =>
    simp only [List.map_cons, List.dropWhile_cons, isJsWhiteSpace_upperChar]
    split
    · exact ih
    · rfl

theorem trimChars_map_upper (l : List Char) :
    trimChars (l.map upperChar) = (trimChars l).map upperChar := by
  unfold trimChars
  rw [dropWhile_map_upper, ← List.map_reverse, dropWhile_map_upper, List.map_reverse]

theorem dropWhile_of_prefix_fixed (m r : List Char)
    (hm : m.dropWhile isJsWhiteSpace = m) (hr : r <+: m) : r.dropWhile isJsWhiteSpace = r := by
  cases r with
  | nil => rfl
  | cons a as =>
    obtain ⟨t, ht⟩ := hr
    have ha : isJsWhiteSpace a = false := by
      cases hws : isJsWhiteSpace a with
      | false => rfl
      | true =>
        exfalso
        rw [← ht, List.cons_append, List.dropWhile_cons, hws] at hm
        simp only [if_true] at hm
        have hlen := (List.dropWhile_sublist isJsWhiteSpace (l := as ++ t)).length_le
        rw [hm] at hlen
        simp at hlen
    simp [List.dropWhile_cons, ha]

theorem trimChars_idem (l : List Char) : trimChars (trimChars l) = trimChars l := by
  have hfix : (l.dropWhile isJsWhiteSpace).dropWhile isJsWhiteSpace =
      l.dropWhile isJsWhiteSpace := List.dropWhile_idempotent _ _
  have hpre : trimChars l <+: l.dropWhile isJsWhiteSpace :=
    List.rdropWhile_prefix isJsWhiteSpace (l.dropWhile isJsWhiteSpace)
  have h1 := dropWhile_of_prefix_fixed _ _ hfix hpre
  have h2 : (trimChars l).reverse.dropWhile isJsWhiteSpace = (trimChars l).reverse := by
    unfold trimChars
    rw [List.reverse_reverse]
    exact List.dropWhile_idempotent _ _
  have hdef : trimChars (trimChars l) =
      (((trimChars l).dropWhile isJsWhiteSpace).reverse.dropWhile isJsWhiteSpace).reverse := rfl
  rw [hdef, h1, h2, List.reverse_reverse]

theorem normalize_idem (c : String) :
    jsToUpperCase (jsTrim (jsToUpperCase (jsTrim c))) = jsToUpperCase (jsTrim c) := by
  simp only [jsToUpperCase, jsTrim, trimChars_map_upper, trimChars_idem, List.map_map]
  congr 1
  apply List.map_congr_left
  intro a _
  exact upperChar_idem a

/-! ## C8 -/

/-- C9, the code at the failing input. With no user yet, the username "alice"
and an empty password, POST /register collects no error (the test that pushes
"Enter a password." reads the username), stores the user with the hash of the
empty password and sets the cookie. -/
theorem postRegister_empty_password (hashSync : String → String) (now : Nat) :
    registerErrors [] "alice" "" = [] ∧
    postRegister hashSync now [] { username := .text "alice", password := .text "" } =
      (.cookieAndRedirect (authCookie now ⟨1, "alice", hashSync ""⟩) "/",
        [⟨1, "alice", hashSync ""⟩]) := by
  have he : registerErrors [] (jsTrim (FormValue.text "alice").orEmpty)
      (FormValue.text "").orEmpty = [] := by decide
  refine ⟨by decide, ?_⟩
  simp only [postRegister, he]
  rfl

theorem foldl_max_bounds (l : List Int) (a : Int) :
    a ≤ l.foldl max a ∧ ∀ x ∈ l, x ≤ l.foldl max a := by
  induction l generalizing a with
  | nil => simp
  | cons y ys ih =>
    obtain ⟨h1, h2⟩ := ih (max a y)
    refine ⟨le_trans (le_max_left a y) h1, ?_⟩
    intro x hx
    rcases List.mem_cons.mp hx with e | hm
    · subst e
      exact le_trans (le_max_right a x) h1
    · exact h2 x hm

theorem find_new_user (users : List User) (name pw : String) :
    (users ++ [(⟨nextUserId users, name, pw⟩ : User)]).find?
        (fun u : User => decide (u.id = nextUserId users)) =
      some ⟨nextUserId users, name, pw⟩ := by
  have hlt : ∀ u ∈ users, u.id < nextUserId users := by
    intro u hu
    have := (foldl_max_bounds (users.map (fun u => u.id)) 0).2 u.id
      (List.mem_map.mpr ⟨u, hu, rfl⟩)
    unfold nextUserId
    omega
  have hnone : users.find? (fun u => decide (u.id = nextUserId users)) = none := by
    rw [List.find?_eq_none]
    intro u hu hid
    have := hlt u hu
    simp only [decide_eq_true_eq] at hid
    omega
  simp [List.find?_append, hnone]

/-- The part of the password rules that the code does enforce: a non-empty
password whose length is outside [12, 70] is refused with a non-empty error
list and the users table is left as it was; below 12 the list holds
"Password must be at least 12 characters". -/
theorem postRegister_password_length (hashSync : String → String) (now : Nat)
    (users : List User) (body : Body)
    (hne : body.password.orEmpty ≠ "")
    (hlen : jsLength body.password.orEmpty < 12 ∨ 70 < jsLength body.password.orEmpty) :
    ∃ errors, errors ≠ [] ∧
      postRegister hashSync now users body = (.render "homepage" errors, users) ∧
      (jsLength body.password.orEmpty < 12 →
        "Password must be at least 12 characters" ∈ errors) := by
  have herr : registerErrors users (jsTrim body.username.orEmpty) body.password.orEmpty ≠ [] ∧
      (jsLength body.password.orEmpty < 12 → "Password must be at least 12 characters" ∈
        registerErrors users (jsTrim body.username.orEmpty) body.password.orEmpty) := by
    unfold registerErrors
    rcases hlen with h | h
    · refine ⟨?_, fun _ => ?_⟩ <;> simp [hne, h]
    · have h12 : ¬ jsLength body.password.orEmpty < 12 := by omega
      refine ⟨?_, fun h' => absurd h' h12⟩
      simp [hne, h]
  refine ⟨_, herr.1, ?_, herr.2⟩
  have hl : (registerErrors users (jsTrim body.username.orEmpty)
      body.password.orEmpty).length ≠ 0 := fun e => herr.1 (List.length_eq_zero.mp e)
  simp only [postRegister, hl, ne_eq, not_false_eq_true, if_true]

/-- With a username that passes its rules and is not taken, a password of 12
UTF-16 units is accepted and exactly one row is appended to the users table. -/
theorem postRegister_length_twelve (hashSync : String → String) (now : Nat)
    (users : List User) (body : Body)
    (hu : jsTrim body.username.orEmpty ≠ "")
    (hu3 : 3 ≤ jsLength (jsTrim body.username.orEmpty))
    (hu10 : jsLength (jsTrim body.username.orEmpty) ≤ 10)
    (hal : isAlphanumeric (jsTrim body.username.orEmpty) = true)
    (hfree : ∀ u ∈ users, u.username ≠ jsTrim body.username.orEmpty)
    (hlen : jsLength body.password.orEmpty = 12) :
    postRegister hashSync now users body =
      (.cookieAndRedirect
          (authCookie now ⟨nextUserId users, jsTrim body.username.orEmpty,
            hashSync body.password.orEmpty⟩) "/",
        users ++ [⟨nextUserId users, jsTrim body.username.orEmpty,
          hashSync body.password.orEmpty⟩]) := by
  have hsel : selectUser users (jsTrim body.username.orEmpty) = none := by
    unfold selectUser
    rw [List.find?_eq_none]
    intro u hu' hid
    exact hfree u hu' (by simpa using hid)
  have h3 : ¬ jsLength (jsTrim body.username.orEmpty) < 3 := by omega
  have h10 : ¬ jsLength (jsTrim body.username.orEmpty) > 10 := by omega
  have h12 : ¬ jsLength body.password.orEmpty < 12 := by omega
  have h70 : ¬ jsLength body.password.orEmpty > 70 := by omega
  have he : registerErrors users (jsTrim body.username.orEmpty) body.password.orEmpty = [] := by
    simp [registerErrors, hu, h3, h10, hal, hsel, h12, h70]
  simp only [postRegister, he, List.length_nil, ne_eq, not_true_eq_false, if_false]
  rw [find_new_user]

/-! ## C10 -/

end Storefront
